import Mathlib

set_option maxRecDepth 8000

/-!
Shallow embedding of the transformation in src/generate_template.py.

The program reads an events workbook and a staff workbook with openpyxl,
parses the dropdown data validations out of the raw xlsx container, and
writes an output workbook.  The embedding models a loaded workbook as a
grid of cells (value plus fill color), takes the already-parsed
data-validation map as an input (it is produced by the XML layer,
`parse_data_validations_xlsx`, which is pure container I/O), and models
the stream of colors that `random.choice` returns inside
`get_light_fill` as an oracle function from draw index to color.
Machine floats only ever enter through `float(c.value) > 0`; cell
numbers are modelled as integers and numeric strings are parsed into
rationals for that comparison.
-/

/-- A spreadsheet cell value as openpyxl reports it: Python `None`, a
string, or a number (the workbooks this program reads carry integer day
counts, so numbers are modelled as integers). -/
inductive CellVal where
  | empty : CellVal
  | str (s : String) : CellVal
  | num (n : Int) : CellVal
deriving DecidableEq

/-!
String primitives.  The core String API walks byte positions through
well-founded recursion, which the kernel cannot evaluate, so every
Python string operation the program uses is given a structural
implementation over the character list of the string.
-/

/-- Python s.strip() over a character list. -/
def trimWs (l : List Char) : List Char :=
  ((l.dropWhile Char.isWhitespace).reverse.dropWhile Char.isWhitespace).reverse

/-- Python s.strip(). -/
def sTrim (s : String) : String := String.mk (trimWs s.data)

/-- Python s.lower() (the sheets carry ascii text). -/
def sLower (s : String) : String := String.mk (s.data.map Char.toLower)

/-- Python s.upper(). -/
def sUpper (s : String) : String := String.mk (s.data.map Char.toUpper)

/-- Substring containment over character lists. -/
def containsSub (pat : List Char) : List Char → Bool
  | [] => pat.isEmpty
  | c :: tl => pat.isPrefixOf (c :: tl) || containsSub pat tl

/-- Python's substring test `sub in s`. -/
def pyIn (sub s : String) : Bool := containsSub sub.data s.data

/-- Python s.split(sep) for a non-empty separator, over character lists;
the fuel is the length of the list and every step consumes at least one
character. -/
def splitOnAux (sep : List Char) : Nat → List Char → List (List Char)
  | _, [] => [[]]
  | 0, l => [l]
  | fuel + 1, c :: tl =>
    if sep.isPrefixOf (c :: tl) then
      [] :: splitOnAux sep fuel ((c :: tl).drop sep.length)
    else
      match splitOnAux sep fuel tl with
      | [] => [[c]]
      | h :: t => (c :: h) :: t

/-- Python s.split(sep) for a non-empty separator. -/
def sSplitOn (sep s : String) : List String :=
  (splitOnAux sep.data s.data.length s.data).map String.mk

def intercalateL (sep : List Char) : List (List Char) → List Char
  | [] => []
  | [x] => x
  | x :: xs => x ++ sep ++ intercalateL sep xs

/-- Python sep.join(l). -/
def sIntercalate (sep : String) (l : List String) : String :=
  String.mk (intercalateL sep.data (l.map String.data))

/-- Python s.startswith(pre). -/
def sStartsWith (s pre : String) : Bool := pre.data.isPrefixOf s.data

/-- Python s.endswith(suf). -/
def sEndsWith (s suf : String) : Bool := suf.data.isSuffixOf s.data

/-- Drop the first n characters. -/
def sDrop (s : String) (n : Nat) : String := String.mk (s.data.drop n)

def replaceAux (pat rep : List Char) : Nat → List Char → List Char
  | _, [] => []
  | 0, l => l
  | fuel + 1, c :: tl =>
    if pat.isPrefixOf (c :: tl) then
      rep ++ replaceAux pat rep fuel ((c :: tl).drop pat.length)
    else c :: replaceAux pat rep fuel tl

/-- Python s.replace(pat, rep) for a non-empty pattern. -/
def sReplace (s pat rep : String) : String :=
  String.mk (replaceAux pat.data rep.data s.data.length s.data)

/-- Python `s.strip(c)` for a single character: remove every leading and
trailing occurrence of that character. -/
def stripChar (c : Char) (s : String) : String :=
  String.mk ((((s.toList.dropWhile (· == c)).reverse).dropWhile (· == c)).reverse)

/-- Value of a digit run. -/
def digitsVal (l : List Char) : Nat := l.foldl (fun a c => a * 10 + (c.toNat - 48)) 0

/-- Python int(str) on an optionally signed decimal literal surrounded
by whitespace. -/
def toIntL (l : List Char) : Option Int :=
  let go : List Char → Option Int := fun ds =>
    if ds.isEmpty || !(ds.all Char.isDigit) then none else some ((digitsVal ds : Int))
  match trimWs l with
  | '-' :: ds => (go ds).map (fun n => -n)
  | '+' :: ds => go ds
  | ds => go ds

/-- Decimal natural literal. -/
def toNatL (l : List Char) : Option Nat :=
  if l.isEmpty || !(l.all Char.isDigit) then none else some (digitsVal l)

/-- Python `float(s)` on the decimal literals that occur in these sheets:
optional sign, integer digits, optional fraction digits.  Exponent forms
are not modelled. -/
def parsePyFloat (s : String) : Option Rat :=
  let cs := trimWs s.data
  let neg : Bool := cs.headD ' ' == '-'
  let cs1 := if cs.headD ' ' == '-' || cs.headD ' ' == '+' then cs.tail else cs
  let ip := cs1.takeWhile Char.isDigit
  let rest := cs1.dropWhile Char.isDigit
  let mag : Option Rat :=
    match rest with
    | [] => if ip.isEmpty then none else some ((digitsVal ip : Int) : Rat)
    | '.' :: fp =>
      if fp.all Char.isDigit && !(ip.isEmpty && fp.isEmpty) then
        some (((digitsVal ip : Int) : Rat) + ((digitsVal fp : Int) : Rat) / ((10 : Rat) ^ fp.length))
      else none
    | _ => none
  mag.map (fun q => if neg then -q else q)

/-- Python `float(v)` on a cell value, `none` when it raises. -/
def pyFloat? : CellVal → Option Rat
  | .empty => none
  | .str s => parsePyFloat s
  | .num n => some ((n : Int) : Rat)

/-- Python `int(v)` on a cell value, `none` when it raises (strings must
be integer literals; `int` of a number truncates, and modelled numbers
are already integers). -/
def pyInt? : CellVal → Option Int
  | .empty => none
  | .str s => toIntL s.data
  | .num n => some n

/-- Python `str(v)` for a non-None cell value. -/
def pyStrVal : CellVal → Option String
  | .empty => none
  | .str s => some s
  | .num n => some (toString n)

/-- safe_str from the source: empty string for None, otherwise
`str(v).strip()`. -/
def safe_str (v : CellVal) : String :=
  match v with
  | .empty => ""
  | .str s => sTrim s
  | .num n => sTrim (toString n)

/-- A loaded cell: evaluated value plus the rgb string of its fill color
when one is set. -/
structure Cell where
  val : CellVal
  fill : Option String
deriving DecidableEq

/-- A loaded worksheet: name plus the rectangular grid of cells, row 1
first; cells outside the grid read as empty. -/
structure Sheet where
  name : String
  grid : List (List Cell)
deriving DecidableEq

def Sheet.cell (ws : Sheet) (r c : Nat) : Cell :=
  (((ws.grid.get? (r - 1)).getD []).get? (c - 1)).getD ⟨.empty, none⟩

def Sheet.maxRow (ws : Sheet) : Nat := max 1 ws.grid.length

def Sheet.maxCol (ws : Sheet) : Nat :=
  max 1 (ws.grid.foldl (fun a row => max a row.length) 0)

/-- A loaded workbook: worksheets in file order plus the workbook-level
named ranges, each name mapping to its destinations (sheet title, area). -/
structure Workbook where
  sheets : List Sheet
  definedNames : List (String × List (String × String))
deriving DecidableEq

def Workbook.sheetnames (wb : Workbook) : List String := wb.sheets.map Sheet.name

def Workbook.find? (wb : Workbook) (name : String) : Option Sheet :=
  wb.sheets.find? (fun ws => ws.name == name)

-- ---------- config constants from the source ----------

def TARGET_SHEETS : List String := ["AKUN", "WAMA", "GALAXEA"]

def TARGET_RED : String := "FFC00000"

def YEAR_FOR_OUTPUT : Nat := 2025

/-- get_rgb from the source: the fill's rgb string, upper-cased. -/
def get_rgb (c : Cell) : Option String := c.fill.map sUpper

/-- is_red from the source. -/
def is_red (c : Cell) : Bool := get_rgb c == some TARGET_RED

-- ---------- clean_instructor_name ----------

/-- One attempt to match the pattern of `re.sub` in clean_instructor_name
at the current position: leading whitespace, a literal opening
parenthesis, a lazy body up to the first closing parenthesis, then
trailing whitespace.  Returns the remainder after the match. -/
def parenMatchAt (cs : List Char) : Option (List Char) :=
  match cs.dropWhile Char.isWhitespace with
  | '(' :: tl =>
    match tl.dropWhile (fun c => !(c == ')')) with
    | ')' :: rest => some (rest.dropWhile Char.isWhitespace)
    | _ => none
  | _ => none

/-- Leftmost, non-overlapping replacement of every match by nothing; the
fuel is an upper bound on the number of characters still to inspect and
each step consumes at least one character. -/
def subParenAux : Nat → List Char → List Char
  | 0, cs => cs
  | _ + 1, [] => []
  | fuel + 1, c :: tl =>
    match parenMatchAt (c :: tl) with
    | some rest => subParenAux fuel rest
    | none => c :: subParenAux fuel tl

/-- re.sub of the parenthesized-annotation pattern over the whole string. -/
def subParens (s : String) : String := String.mk (subParenAux s.length s.toList)

/-- clean_instructor_name from the source.  The Python function returns
None for a falsy argument and every call site only tests truthiness of
the result, so the empty string stands for both None and an
empty-after-cleaning name. -/
def clean_instructor_name (name : String) : String :=
  if name = "" then "" else sTrim (subParens name)

-- ---------- association-list helpers for Python dicts ----------

/-- Lookup in an association list (a Python dict in insertion order). -/
def alookup {α : Type} : List (String × α) → String → Option α
  | [], _ => none
  | (k1, v) :: rest, k => if k1 = k then some v else alookup rest k

/-- dict.setdefault(key, []).append(v): key order is insertion order. -/
def appendAt : List (String × List String) → String → String → List (String × List String)
  | [], k, v => [(k, [v])]
  | (k1, vs) :: rest, k, v =>
    if k1 = k then (k1, vs ++ [v]) :: rest else (k1, vs) :: appendAt rest k v

/-- dict assignment d[k] = v: overwrite in place, else append. -/
def upsert {α : Type} : List (String × α) → String → α → List (String × α)
  | [], k, v => [(k, v)]
  | (k1, v1) :: rest, k, v =>
    if k1 = k then (k1, v) :: rest else (k1, v1) :: upsert rest k v

/-- set.add on a list that represents a set. -/
def setAdd (l : List String) (v : String) : List String :=
  if v ∈ l then l else l ++ [v]

-- ---------- preload_staff ----------

/-- The per-column scan of preload_staff: walk the cells of one
instructor column from row 2 down, stop at the first blank cell, skip
red cells without stopping, and collect the remaining activity texts in
row order. -/
def colEntries : List Cell → List String
  | [] => []
  | c :: rest =>
    if safe_str c.val = "" then []
    else if is_red c then colEntries rest
    else safe_str c.val :: colEntries rest

/-- The lower-cased, stripped texts of the header row, as the source
builds them from `ws[1]`. -/
def headerCells (ws : Sheet) : List String :=
  (List.range' 1 ws.maxCol).map (fun c => sLower (safe_str (ws.cell 1 c).val))

/-- pri_idx from preload_staff: the 1-based column of the first header
equal to priority, and 1 when there is none. -/
def pri_idx (headers : List String) : Nat :=
  match headers.findIdx? (fun h => h = "priority") with
  | some i => i + 1
  | none => 1

/-- instr_start_col from preload_staff. -/
def instr_start_col (headers : List String) : Nat := pri_idx headers + 1

/-- The cells of one column from row 2 to max_row, the range the while
loop of preload_staff visits. -/
def columnCells (ws : Sheet) (col : Nat) : List Cell :=
  (List.range' 2 (ws.maxRow - 1)).map (fun r => ws.cell r col)

/-- The activity-to-instructors map preload_staff builds for one staff
sheet. -/
def staffSheetMap (ws : Sheet) : List (String × List String) :=
  (List.range' (instr_start_col (headerCells ws))
      (ws.maxCol + 1 - instr_start_col (headerCells ws))).foldl
    (fun m col =>
      let instr := clean_instructor_name (safe_str (ws.cell 1 col).val)
      if instr = "" then m
      else (colEntries (columnCells ws col)).foldl (fun m2 v => appendAt m2 v instr) m)
    []

/-- preload_staff from the source: one entry per target sheet present in
the staff workbook, keyed by the exact target-sheet name. -/
def preload_staff (staffWb : Workbook) : List (String × List (String × List String)) :=
  TARGET_SHEETS.foldl
    (fun acc sheet =>
      match staffWb.find? sheet with
      | none => acc
      | some ws => acc ++ [(sheet, staffSheetMap ws)])
    []

-- ---------- column letters and ranges ----------

def colLetterAux : Nat → Nat → String
  | 0, _ => ""
  | fuel + 1, n =>
    if n = 0 then ""
    else colLetterAux fuel ((n - 1) / 26) ++ String.singleton (Char.ofNat (65 + (n - 1) % 26))

/-- openpyxl get_column_letter, 1-based. -/
def colLetter (n : Nat) : String := colLetterAux n n

def lettersToCol (l : List Char) : Nat :=
  l.foldl (fun a c => a * 26 + (c.toNat - 64)) 0

/-- One side of a range, after the coordinate pattern openpyxl's
range_boundaries matches: an optional dollar, at most three letters, an
optional dollar, optional digits, nothing else.  Returns the column
index and row number, each optional. -/
def parseBoundPart (l : List Char) : Option (Option Nat × Option Nat) :=
  let l1 := if l.headD ' ' == '$' then l.tail else l
  let letters := l1.takeWhile Char.isAlpha
  let l2 := l1.dropWhile Char.isAlpha
  let l3 := if l2.headD ' ' == '$' then l2.tail else l2
  let digits := l3.takeWhile Char.isDigit
  let l4 := l3.dropWhile Char.isDigit
  if !l4.isEmpty || 3 < letters.length then none
  else
    some (if letters.isEmpty then none else some (lettersToCol (letters.map Char.toUpper)),
      if digits.isEmpty then none else some (digitsVal digits))

/-- openpyxl range_boundaries: (min_col, min_row, max_col, max_row),
each optional; with no separator the maxima copy the minima; with a
separator both sides must be full coordinates, or both column-only, or
both row-only; `none` when the string raises ValueError. -/
def rangeBoundaries (s : String) :
    Option (Option Nat × Option Nat × Option Nat × Option Nat) :=
  match sSplitOn ":" s with
  | [a] =>
    match parseBoundPart a.data with
    | some (c, r) => some (c, r, c, r)
    | none => none
  | [a, b] =>
    match parseBoundPart a.data, parseBoundPart b.data with
    | some (c1, r1), some (c2, r2) =>
      if (c1.isSome && r1.isSome && c2.isSome && r2.isSome)
        || (c1.isSome && c2.isSome && !r1.isSome && !r2.isSome)
        || (r1.isSome && r2.isSome && !c1.isSome && !c2.isSome) then
        some (c1, r1, c2, r2)
      else none
    | _, _ => none
  | _ => none

/-- What the openpyxl expression ws[key] evaluates to: a single Cell for
a bare coordinate, a flat tuple of cells for a single full row or
column, and a tuple of tuples otherwise. -/
inductive Slice where
  | single (c : Cell) : Slice
  | flat (cs : List Cell) : Slice
  | rect (rows : List (List Cell)) : Slice

/-- The openpyxl expression ws[key]; `none` when ws[key] itself raises
(ValueError from range_boundaries or IndexError on an empty match). -/
def wsGet (ws : Sheet) (key : String) : Option Slice :=
  match rangeBoundaries key with
  | none => none
  | some (minC, minR, maxC, maxR) =>
    if !(minC.isSome || minR.isSome || maxC.isSome || maxR.isSome) then none
    else
      match minR with
      | none =>
        let c1 := minC.getD 1
        let c2 := maxC.getD 1
        match (List.range' c1 (c2 + 1 - c1)).map (fun c =>
            (List.range' 1 ws.maxRow).map (fun r => ws.cell r c)) with
        | [col] => some (.flat col)
        | cols => some (.rect cols)
      | some r1 =>
        match minC with
        | none =>
          let r2 := maxR.getD r1
          match (List.range' r1 (r2 + 1 - r1)).map (fun r =>
              (List.range' 1 ws.maxCol).map (fun c => ws.cell r c)) with
          | [row] => some (.flat row)
          | rows => some (.rect rows)
        | some c1 =>
          if pyIn ":" key then
            let c2 := maxC.getD c1
            let r2 := maxR.getD r1
            some (.rect ((List.range' r1 (r2 + 1 - r1)).map (fun r =>
              (List.range' c1 (c2 + 1 - c1)).map (fun c => ws.cell r c))))
          else some (.single (ws.cell r1 c1))

/-- The nested loops `for row in cells: for c in row` over a slice:
`none` when Python raises TypeError because an element of the outer
iteration is a single non-iterable Cell, which happens for a bare
coordinate and for the non-empty flat tuple of a single full row or
column. -/
def iterSlice : Slice → Option (List Cell)
  | .single _ => none
  | .flat cs => if cs.isEmpty then some [] else none
  | .rect rows => some rows.join

/-- `str(c.value).strip()` over the non-None cells of a range, in the
order the nested loops of resolve_formula_to_values visit them. -/
def collectVals (cells : List Cell) : List String :=
  (cells.filterMap (fun c => pyStrVal c.val)).map sTrim

/-- list(dict.fromkeys(values)): drop duplicates, keep first occurrences. -/
def dedupFirst (l : List String) : List String :=
  l.foldl (fun acc x => if x ∈ acc then acc else acc ++ [x]) []

-- ---------- resolve_formula_to_values ----------

/-- The outcome of resolve_formula_to_values: either the option list it
returns, or an uncaught exception escaping it.  In the cross-sheet and
same-sheet branches only `cells = ws[rng]` sits inside the try, so the
TypeError of iterating a single Cell propagates out of the function and
aborts the whole run. -/
inductive ResolveResult where
  | ok (vs : List String) : ResolveResult
  | raise : ResolveResult
deriving DecidableEq

/-- resolve_formula_to_values from the source: inline quoted lists are
split on commas; a cross-sheet reference is dereferenced on the named
sheet, an unreadable range yielding no options but a single-cell (or
single full row or column) result raising an uncaught TypeError;
failing that, a range reference is tried against every sheet with the
same uncaught TypeError for non-nested results; failing that, a
workbook named range is dereferenced with the whole loop inside a try,
so there any failure yields no options. -/
def resolve_formula_to_values (wb : Workbook) (formula : String) : ResolveResult :=
  if formula = "" then .ok []
  else
    let f := sTrim formula
    if sStartsWith f "\"" && sEndsWith f "\"" then
      .ok (((sSplitOn "," (stripChar '"' f)).map sTrim).filter (fun x => x ≠ ""))
    else
      let ref := if sStartsWith f "=" then sTrim (sDrop f 1) else f
      let fromBang : Option ResolveResult :=
        if pyIn "!" ref then
          let parts := sSplitOn "!" ref
          let sheetPart := stripChar '"' (stripChar '\'' (sTrim (parts.headD "")))
          let rng := sReplace (sIntercalate "!" parts.tail) "$" ""
          match wb.find? sheetPart with
          | some ws =>
            match wsGet ws rng with
            | none => some (.ok [])
            | some sl =>
              match iterSlice sl with
              | none => some .raise
              | some cells => some (.ok (dedupFirst (collectVals cells)))
          | none => none
        else none
      match fromBang with
      | some res => res
      | none =>
        if pyIn ":" ref then
          let step : ResolveResult → Sheet → ResolveResult :=
            fun acc ws =>
              match acc with
              | .raise => .raise
              | .ok vs =>
                match wsGet ws ref with
                | none => .ok vs
                | some sl =>
                  match iterSlice sl with
                  | none => .raise
                  | some cells => .ok (vs ++ collectVals cells)
          match wb.sheets.foldl step (.ok []) with
          | .ok vs => .ok (dedupFirst vs)
          | .raise => .raise
        else
          match alookup wb.definedNames ref with
          | some dests =>
            let step : Option (List String) → String × String → Option (List String) :=
              fun acc td =>
                match acc with
                | none => none
                | some vs =>
                  match wb.find? td.1 with
                  | some ws =>
                    match wsGet ws td.2 with
                    | none => none
                    | some sl =>
                      match iterSlice sl with
                      | none => none
                      | some cells => some (vs ++ collectVals cells)
                  | none => some vs
            match dests.foldl step (some []) with
            | some vs => .ok (dedupFirst vs)
            | none => .ok []
          | none => .ok []

-- ---------- month parsing ----------

def MONTH_NAMES : List String :=
  ["january", "february", "march", "april", "may", "june",
   "july", "august", "september", "october", "november", "december"]

def dropTrailingPunct (s : String) : String :=
  String.mk ((s.toList.reverse.dropWhile (fun c => c == '.' || c == ',')).reverse)

/-- Modelled from the spec: the helper `parse_month_to_num` is called by
generate_output for month cells that `int` cannot convert
(src/generate_template.py line 353), but its definition is missing from
the sources.  Per the spec it resolves a month name, abbreviation, or
numeral, tolerant of trailing punctuation and of year suffixes, and an
unrecognized string resolves to no match. -/
def parse_month_to_num (v : CellVal) : Option Int :=
  match v with
  | .empty => none
  | .num n => if 1 ≤ n ∧ n ≤ 12 then some n else none
  | .str s =>
    let tok := dropTrailingPunct ((sSplitOn " " (sLower (sTrim s))).headD "")
    match MONTH_NAMES.findIdx? (fun m => decide (3 ≤ tok.length) && sStartsWith m tok) with
    | some i => some ((i : Int) + 1)
    | none =>
      match toNatL tok.data with
      | some n => if 1 ≤ n ∧ n ≤ 12 then some (n : Int) else none
      | none => none

/-- The month-number resolution of generate_output: `int(month_val)`
first, falling back to parse_month_to_num when int raises. -/
def resolveMonth (v : CellVal) : Option Int :=
  match pyInt? v with
  | some n => some n
  | none => parse_month_to_num v

/-- Two-digit zero padding as Python format 02d renders it. -/
def pad2 (n : Int) : String :=
  let s := toString n
  if s.length < 2 then "0" ++ s else s

/-- The DD/MM/YYYY date string generate_output emits. -/
def mkDate (d m : Int) : String :=
  pad2 d ++ "/" ++ pad2 m ++ "/" ++ toString YEAR_FOR_OUTPUT

-- ---------- output data model ----------

/-- The deduplication key generate_output records in seen_events. -/
structure EventKey where
  event : String
  resort : String
  activity : String
  date : String
  startT : String
  endT : String
deriving DecidableEq

/-- One output row: the six ordered cells plus the fill color applied to
all of them. -/
structure OutRow where
  event : String
  resource : String
  config : String
  date : String
  startT : String
  endT : String
  fill : String
deriving DecidableEq

/-- One slot that passed deduplication: the key added to seen_events, the
event header row, and the instructor rows written right below it. -/
structure Emitted where
  key : EventKey
  header : OutRow
  instrRows : List OutRow
deriving DecidableEq

def Emitted.rows (e : Emitted) : List OutRow := e.header :: e.instrRows

def sheetRows (blocks : List Emitted) : List OutRow := (blocks.map Emitted.rows).join

def allRows (out : List (String × List Emitted)) : List OutRow :=
  (out.map (fun p => sheetRows p.2)).join

/-- The mutable state generate_output threads while walking data rows:
the per-sheet seen_events set, the run-wide event_color_cache, and the
index of the next random color draw. -/
structure GenState where
  seen : List EventKey
  cache : List (String × String)
  ctr : Nat
deriving DecidableEq

/-- Everything generate_output has resolved about one recognized sheet
before entering its data-row loop. -/
structure RowCtx where
  sheetName : String
  ws : Sheet
  wb : Workbook
  resortCol : Option Nat
  activityCol : Nat
  bookableCol : Nat
  monthCol : Nat
  durationCol : Option Nat
  dateStartCol : Nat
  maxCheckCol : Nat
  activityResorts : List (String × List String)
  instrsMap : List (String × List String)
  dvs : List (String × String)
  supply : Nat → String

-- ---------- per-row readers ----------

def rowActivity (ctx : RowCtx) (r : Nat) : String :=
  safe_str (ctx.ws.cell r ctx.activityCol).val

def rowResort (ctx : RowCtx) (r : Nat) : String :=
  match ctx.resortCol with
  | some c => safe_str (ctx.ws.cell r c).val
  | none => ""

def rowDuration (ctx : RowCtx) (r : Nat) : String :=
  match ctx.durationCol with
  | some c => safe_str (ctx.ws.cell r c).val
  | none => ""

def rowMonthVal (ctx : RowCtx) (r : Nat) : CellVal := (ctx.ws.cell r ctx.monthCol).val

/-- One step of the first-day scan: the day column signals availability
when its cell parses as a positive float, and the loop then reads the
day number from the column header; if that header is not an integer the
raised exception is swallowed and the scan moves on, so both parses must
succeed. -/
def dayAt (ctx : RowCtx) (r col : Nat) : Option Int :=
  match pyFloat? (ctx.ws.cell r col).val with
  | some q => if 0 < q then pyInt? (ctx.ws.cell 1 col).val else none
  | none => none

/-- The first signaled day in the bounded window of day columns after the
month column. -/
def firstDay (ctx : RowCtx) (r : Nat) : Option Int :=
  (List.range' ctx.dateStartCol (ctx.maxCheckCol + 1 - ctx.dateStartCol)).findSome? (dayAt ctx r)

/-- The canonical event name: the activity, disambiguated by the resort
when the pre-pass saw the activity under more than one resort and this
row names one. -/
def rowEventName (ctx : RowCtx) (r : Nat) : String :=
  let activity := rowActivity ctx r
  let resorts := (alookup ctx.activityResorts activity).getD []
  if 1 < resorts.length ∧ rowResort ctx r ≠ "" then
    activity ++ " - " ++ rowResort ctx r
  else activity

def rowInstrs (ctx : RowCtx) (r : Nat) : List String :=
  (alookup ctx.instrsMap (rowActivity ctx r)).getD []

def bookableCoord (ctx : RowCtx) (r : Nat) : String :=
  colLetter ctx.bookableCol ++ toString r

/-- The slot resolution of one data row: the data-validation formula of
the row's bookable-hours cell resolved over the events workbook, no
options when that cell carries no formula, and `raise` when the
uncaught TypeError escapes resolve_formula_to_values, in which case the
source run aborts at this row. -/
def rowSlotsE (ctx : RowCtx) (r : Nat) : ResolveResult :=
  match alookup ctx.dvs (bookableCoord ctx r) with
  | some f => resolve_formula_to_values ctx.wb f
  | none => .ok []

/-- The time-slot list of a row on which the source does not raise.  On
a row where rowSlotsE raises, the source program aborts and writes no
output workbook at all; the total functions below describe completed
runs and read such a row as slotless. -/
def rowSlots (ctx : RowCtx) (r : Nat) : List String :=
  match rowSlotsE ctx r with
  | .ok vs => vs
  | .raise => []

/-- The color cache step: reuse the cached fill for the event name, or
take the next color from the random stream and cache it. -/
def colorFor (supply : Nat → String) (s : GenState) (name : String) : GenState × String :=
  match alookup s.cache name with
  | some f => (s, f)
  | none => (⟨s.seen, s.cache ++ [(name, supply s.ctr)], s.ctr + 1⟩, supply s.ctr)

/-- Split one dropdown option on its first hyphen, both sides stripped;
an option with no hyphen becomes a start time with empty end time. -/
def splitSlot (t : String) : String × String :=
  if pyIn "-" t then
    let parts := sSplitOn "-" t
    (sTrim (parts.headD ""), sTrim (sIntercalate "-" parts.tail))
  else (t, "")

/-- The seen_events key of one option string. -/
def slotKey (eventName resort activity dateStr slot : String) : EventKey :=
  ⟨eventName, resort, activity, dateStr, (splitSlot (sTrim slot)).1, (splitSlot (sTrim slot)).2⟩

/-- The inner loop of generate_output over the resolved options of one
row: blank options are skipped, keys already in seen_events are skipped,
and every surviving option emits one header row followed by one row per
instructor. -/
def emitSlots (eventName resort activity dateStr fill : String) (instrs : List String)
    (seen : List EventKey) : List String → List EventKey × List Emitted
  | [] => (seen, [])
  | slot :: rest =>
    if sTrim slot = "" then emitSlots eventName resort activity dateStr fill instrs seen rest
    else
      let key := slotKey eventName resort activity dateStr slot
      if key ∈ seen then emitSlots eventName resort activity dateStr fill instrs seen rest
      else
        let e : Emitted :=
          ⟨key,
           ⟨eventName, activity, activity, dateStr, key.startT, key.endT, fill⟩,
           instrs.map (fun i => ⟨eventName, i, activity, dateStr, key.startT, key.endT, fill⟩)⟩
        let res := emitSlots eventName resort activity dateStr fill instrs (key :: seen) rest
        (res.1, e :: res.2)

/-- The emission tail of one data row, entered once every gate has
passed: pick the color, resolve the slots, and run the slot loop. -/
def emitRow (ctx : RowCtx) (s : GenState) (r : Nat) (dateStr : String) :
    GenState × List Emitted :=
  let cf := colorFor ctx.supply s (rowEventName ctx r)
  let res := emitSlots (rowEventName ctx r) (rowResort ctx r) (rowActivity ctx r) dateStr
    cf.2 (rowInstrs ctx r) cf.1.seen (rowSlots ctx r)
  (⟨res.1, cf.1.cache, cf.1.ctr⟩, res.2)

/-- One data row of generate_output: the gates in source order (empty
activity, the GALAXEA multi-day filter, the day scan with Python
falsiness of 0, the month resolution with the same falsiness), then the
emission tail. -/
def processRow (ctx : RowCtx) (s : GenState) (r : Nat) : GenState × List Emitted :=
  if rowActivity ctx r = "" then (s, [])
  else if sUpper ctx.sheetName = "GALAXEA" ∧ pyIn "day" (sLower (rowDuration ctx r)) then (s, [])
  else
    match firstDay ctx r with
    | none => (s, [])
    | some d =>
      if d = 0 then (s, [])
      else
        match resolveMonth (rowMonthVal ctx r) with
        | none => (s, [])
        | some m =>
          if m = 0 then (s, [])
          else emitRow ctx s r (mkDate d m)

/-- The data-row loop of one sheet. -/
def processRows (ctx : RowCtx) (s : GenState) : List Nat → GenState × List Emitted
  | [] => (s, [])
  | r :: rest =>
    let a := processRow ctx s r
    let b := processRows ctx a.1 rest
    (b.1, a.2 ++ b.2)

-- ---------- sheet level ----------

/-- The source-sheet header map: lower-cased stripped header text to
column index, later columns overwriting earlier duplicates. -/
def headerMap (ws : Sheet) : List (String × Nat) :=
  (List.range' 1 ws.maxCol).foldl
    (fun m c =>
      let hv := sLower (safe_str (ws.cell 1 c).val)
      if hv = "" then m else upsert m hv c)
    []

/-- The pre-pass of generate_output: for every activity, the set of
resort texts it appears under across the sheet. -/
def buildActivityResorts (ws : Sheet) (activityCol : Nat) (resortCol : Option Nat) :
    List (String × List String) :=
  (List.range' 2 (ws.maxRow - 1)).foldl
    (fun m r =>
      let act := safe_str (ws.cell r activityCol).val
      let res := match resortCol with
        | some c => safe_str (ws.cell r c).val
        | none => ""
      if act = "" then m
      else upsert m act (setAdd ((alookup m act).getD []) res))
    []

/-- The per-sheet context generate_output assembles before its data-row
loop. -/
def mkCtx (eventsWb : Workbook) (dvMap : List (String × List (String × String)))
    (instructorsMap : List (String × List (String × List String)))
    (supply : Nat → String) (ws : Sheet)
    (monthCol activityCol bookableCol : Nat) (hm : List (String × Nat)) : RowCtx :=
  ⟨ws.name, ws, eventsWb, alookup hm "resort name", activityCol, bookableCol, monthCol,
    alookup hm "activity duration", monthCol + 1, min ws.maxCol (monthCol + 31),
    buildActivityResorts ws activityCol (alookup hm "resort name"),
    (alookup instructorsMap ws.name).getD [], (alookup dvMap ws.name).getD [],
    supply⟩

/-- One source sheet: skipped silently unless its upper-cased name is a
target; with a required header missing the created output sheet stays
empty; otherwise the data rows run with a fresh seen_events set while
the color cache and draw counter carry across sheets. -/
def processSheet (eventsWb : Workbook) (dvMap : List (String × List (String × String)))
    (instructorsMap : List (String × List (String × List String)))
    (supply : Nat → String) (cache : List (String × String)) (ctr : Nat) (ws : Sheet) :
    (List (String × String) × Nat) × List (String × List Emitted) :=
  if sUpper ws.name ∈ TARGET_SHEETS then
    match alookup (headerMap ws) "month", alookup (headerMap ws) "activity",
        alookup (headerMap ws) "bookable hours" with
    | some monthCol, some activityCol, some bookableCol =>
      let ctx := mkCtx eventsWb dvMap instructorsMap supply ws monthCol activityCol
        bookableCol (headerMap ws)
      let res := processRows ctx ⟨[], cache, ctr⟩ (List.range' 2 (ws.maxRow - 1))
      ((res.1.cache, res.1.ctr), [(ws.name, res.2)])
    | _, _, _ => ((cache, ctr), [(ws.name, [])])
  else ((cache, ctr), [])

/-- The sheet loop, threading the color cache and draw counter. -/
def genFold (eventsWb : Workbook) (dvMap : List (String × List (String × String)))
    (instructorsMap : List (String × List (String × List String)))
    (supply : Nat → String) (cache : List (String × String)) (ctr : Nat) :
    List Sheet → (List (String × String) × Nat) × List (String × List Emitted)
  | [] => ((cache, ctr), [])
  | ws :: rest =>
    let a := processSheet eventsWb dvMap instructorsMap supply cache ctr ws
    let b := genFold eventsWb dvMap instructorsMap supply a.1.1 a.1.2 rest
    (b.1, a.2 ++ b.2)

/-- The pure core of generate_output: the two workbooks are already
loaded, the data-validation map is already parsed out of the container
XML, and supply is the stream of colors random.choice would hand to
get_light_fill.  The result lists, per created output sheet, the blocks
written below the fixed title row. -/
def generate_output (eventsWb : Workbook) (dvMap : List (String × List (String × String)))
    (staffWb : Workbook) (supply : Nat → String) : List (String × List Emitted) :=
  (genFold eventsWb dvMap (preload_staff staffWb) supply [] 0 eventsWb.sheets).2

/-- Same fold, exposing the final color cache for the invariant proofs. -/
def generateFull (eventsWb : Workbook) (dvMap : List (String × List (String × String)))
    (staffWb : Workbook) (supply : Nat → String) :
    (List (String × String) × Nat) × List (String × List Emitted) :=
  genFold eventsWb dvMap (preload_staff staffWb) supply [] 0 eventsWb.sheets

-- ---------- spec-side predicates over the embedding ----------

/-- The date the row resolves to, when its day gate and month gate both
pass: the first signaled day with Python falsiness of 0, then the month
with the same falsiness. -/
def rowDate (ctx : RowCtx) (r : Nat) : Option String :=
  match firstDay ctx r with
  | none => none
  | some d =>
    if d = 0 then none
    else
      match resolveMonth (rowMonthVal ctx r) with
      | none => none
      | some m => if m = 0 then none else some (mkDate d m)

/-- One option of the row is dropped by the duplicate gate: its key is
already in seen_events (vacuously so when no date resolves). -/
def dupSkip (ctx : RowCtx) (s : GenState) (r : Nat) (slot : String) : Bool :=
  match rowDate ctx r with
  | none => true
  | some ds =>
    decide (slotKey (rowEventName ctx r) (rowResort ctx r) (rowActivity ctx r) ds slot ∈ s.seen)

/-- Some per-row gate of generate_output fails or skips on this row:
empty activity, the multi-day filter, no day signal, unparseable (or
falsy) month, no resolvable time slot, or every option blank or
duplicate. -/
def rowSkipGate (ctx : RowCtx) (s : GenState) (r : Nat) : Prop :=
  rowActivity ctx r = ""
  ∨ (sUpper ctx.sheetName = "GALAXEA" ∧ pyIn "day" (sLower (rowDuration ctx r)))
  ∨ firstDay ctx r = none ∨ firstDay ctx r = some 0
  ∨ resolveMonth (rowMonthVal ctx r) = none ∨ resolveMonth (rowMonthVal ctx r) = some 0
  ∨ rowSlots ctx r = []
  ∨ (∀ slot ∈ rowSlots ctx r, sTrim slot = "" ∨ dupSkip ctx s r slot = true)

/-- The second cache never forgets a binding the first one answers. -/
def cacheExtends (c c2 : List (String × String)) : Prop :=
  ∀ k v, alookup c k = some v → alookup c2 k = some v

-- ---------- concrete inputs for the scenario claims and witnesses ----------

def cS (s : String) : Cell := ⟨.str s, none⟩

def cN (n : Int) : Cell := ⟨.num n, none⟩

def cE : Cell := ⟨.empty, none⟩

def s0 : GenState := ⟨[], [], 0⟩

/-- Staff workbook of the round-trip scenario: one instructor column
headed by an annotated name over Yoga, Pilates, a blank, and a value
below the blank that must never be read. -/
def staffWbC7 : Workbook :=
  ⟨[⟨"AKUN", [[cE, cS "Jane Doe (Lead)"], [cE, cS "Yoga"], [cE, cS "Pilates"],
      [cE, cE], [cE, cS "Ghost"]]⟩], []⟩

/-- Staff workbook with no priority header and an instructor name in
column 1. -/
def staffWbC3 : Workbook := ⟨[⟨"AKUN", [[cS "Alice"], [cS "Yoga"]]⟩], []⟩

/-- Events sheet of the Yoga scenario: activity, a dropdown-validated
bookable-hours column, a textual month, and one day column signaling
day 5. -/
def wsC8 : Sheet :=
  ⟨"AKUN", [[cS "Activity", cS "Bookable Hours", cS "Month", cS "5"],
            [cS "Yoga", cE, cS "March", cN 1]]⟩

def eventsWbC8 : Workbook := ⟨[wsC8], []⟩

def dvC8 : List (String × List (String × String)) :=
  [("AKUN", [("B2", "\"09:00 - 10:00,17:00 - 18:00\"")])]

def staffWbC8 : Workbook :=
  ⟨[⟨"AKUN", [[cE, cS "Jane Doe"], [cE, cS "Yoga"]]⟩], []⟩

def supplyC8 : Nat → String := fun _ => "FFFFE5CC"

/-- The Yoga events sheet renamed to mixed case. -/
def wsC10 : Sheet := ⟨"Akun", wsC8.grid⟩

def eventsWbC10 : Workbook := ⟨[wsC10], []⟩

def dvC10 : List (String × List (String × String)) :=
  [("Akun", [("B2", "\"09:00 - 10:00,17:00 - 18:00\"")])]

/-- The row context generate_output builds for the Yoga scenario sheet. -/
def ctxC9 : RowCtx :=
  mkCtx eventsWbC8 dvC8 (preload_staff staffWbC8) supplyC8 wsC8 3 1 2 (headerMap wsC8)

/-- The Yoga sheet with the month written as a year-suffixed
abbreviation. -/
def wsC1 : Sheet :=
  ⟨"AKUN", [[cS "Activity", cS "Bookable Hours", cS "Month", cS "5"],
            [cS "Yoga", cE, cS "Sept 2025", cN 1]]⟩

def ctxC1 : RowCtx :=
  mkCtx ⟨[wsC1], []⟩ dvC8 (preload_staff staffWbC8) supplyC8 wsC1 3 1 2 (headerMap wsC1)

/-- The Yoga sheet with an unrecognizable month. -/
def wsQ3 : Sheet :=
  ⟨"AKUN", [[cS "Activity", cS "Bookable Hours", cS "Month", cS "5"],
            [cS "Yoga", cE, cS "Q3", cN 1]]⟩

def ctxQ3 : RowCtx :=
  mkCtx ⟨[wsQ3], []⟩ dvC8 (preload_staff staffWbC8) supplyC8 wsQ3 3 1 2 (headerMap wsQ3)

/-- A GALAXEA sheet whose data row has a multi-day duration. -/
def wsG : Sheet :=
  ⟨"GALAXEA", [[cS "Activity", cS "Bookable Hours", cS "Month", cS "Activity Duration", cS "5"],
               [cS "Trek", cE, cS "March", cS "2 Days", cN 1]]⟩

def ctxG : RowCtx :=
  mkCtx ⟨[wsG], []⟩ [] [] supplyC8 wsG 3 1 2 (headerMap wsG)

/-- An events sheet whose data row is ordinary in every respect but
whose bookable-hours cell carries a dropdown formula referencing a
single cross-sheet cell. -/
def wsCrash : Sheet :=
  ⟨"AKUN", [[cS "Activity", cS "Bookable Hours", cS "Month", cS "5"],
            [cS "Yoga", cE, cS "March", cN 1]]⟩

/-- The workbook around wsCrash: the referenced sheet exists and the
referenced cell holds a genuine slot text. -/
def wbCrash : Workbook :=
  ⟨[wsCrash, ⟨"Lists", [[cE], [cE, cS "09:00 - 10:00"]]⟩], []⟩

def dvCrash : List (String × List (String × String)) :=
  [("AKUN", [("B2", "=Lists!B2")])]

def ctxCrash : RowCtx :=
  mkCtx wbCrash dvCrash [] supplyC8 wsCrash 3 1 2 (headerMap wsCrash)

instance rowSkipGateDec (ctx : RowCtx) (s : GenState) (r : Nat) :
    Decidable (rowSkipGate ctx s r) := by
  unfold rowSkipGate
  infer_instance

/-- The first block the Yoga scenario emits. -/
def blockC8a : Emitted :=
  ⟨⟨"Yoga", "", "Yoga", "05/03/2025", "09:00", "10:00"⟩,
   ⟨"Yoga", "Yoga", "Yoga", "05/03/2025", "09:00", "10:00", "FFFFE5CC"⟩,
   [⟨"Yoga", "Jane Doe", "Yoga", "05/03/2025", "09:00", "10:00", "FFFFE5CC"⟩]⟩

/-- The second block the Yoga scenario emits. -/
def blockC8b : Emitted :=
  ⟨⟨"Yoga", "", "Yoga", "05/03/2025", "17:00", "18:00"⟩,
   ⟨"Yoga", "Yoga", "Yoga", "05/03/2025", "17:00", "18:00", "FFFFE5CC"⟩,
   [⟨"Yoga", "Jane Doe", "Yoga", "05/03/2025", "17:00", "18:00", "FFFFE5CC"⟩]⟩

-- ---------- lemmas: association lists ----------

theorem alookup_append_of_some {α : Type} (l l2 : List (String × α)) (k : String) (v : α)
    (h : alookup l k = some v) : alookup (l ++ l2) k = some v := by
  induction l with
  | nil => simp [alookup] at h
  | cons p rest ih =>
    rw [List.cons_append]
    unfold alookup at h ⊢
    by_cases hk : p.1 = k
    · simpa [hk] using h
    · simp only [hk, if_false, ite_false] at h ⊢
      exact ih h

theorem alookup_append_self {α : Type} (l : List (String × α)) (k : String) (v : α)
    (h : alookup l k = none) : alookup (l ++ [(k, v)]) k = some v := by
  induction l with
  | nil => simp [alookup]
  | cons p rest ih =>
    rw [List.cons_append]
    unfold alookup at h ⊢
    by_cases hk : p.1 = k
    · simp [hk] at h
    · simp only [hk, if_false, ite_false] at h ⊢
      exact ih h

theorem alookup_isSome_mem {α : Type} (l : List (String × α)) (k : String)
    (h : (alookup l k).isSome) : k ∈ l.map Prod.fst := by
  induction l with
  | nil => simp [alookup] at h
  | cons p rest ih =>
    unfold alookup at h
    split at h
    · simp_all
    · simpa using Or.inr (ih h)

theorem cacheExtends_refl (c : List (String × String)) : cacheExtends c c :=
  fun _ _ h => h

theorem cacheExtends_trans {a b c : List (String × String)}
    (h1 : cacheExtends a b) (h2 : cacheExtends b c) : cacheExtends a c :=
  fun k v h => h2 k v (h1 k v h)

-- ---------- lemmas: colorFor ----------

theorem colorFor_seen (sup : Nat → String) (s : GenState) (n : String) :
    (colorFor sup s n).1.seen = s.seen := by
  unfold colorFor
  cases alookup s.cache n <;> rfl

theorem colorFor_cache (sup : Nat → String) (s : GenState) (n : String) :
    cacheExtends s.cache (colorFor sup s n).1.cache
    ∧ alookup (colorFor sup s n).1.cache n = some (colorFor sup s n).2 := by
  unfold colorFor
  cases h : alookup s.cache n with
  | some f => exact ⟨cacheExtends_refl _, by simpa using h⟩
  | none =>
    constructor
    · intro k v hk
      exact alookup_append_of_some _ _ _ _ hk
    · exact alookup_append_self _ _ _ h

-- ---------- lemmas: emitSlots ----------

theorem emitSlots_shape (en rs act ds fl : String) (instrs : List String) :
    ∀ slots seen e, e ∈ (emitSlots en rs act ds fl instrs seen slots).2 →
      e.header = ⟨en, act, act, ds, e.key.startT, e.key.endT, fl⟩
      ∧ e.instrRows = instrs.map (fun i => ⟨en, i, act, ds, e.key.startT, e.key.endT, fl⟩)
      ∧ e.key.event = en ∧ e.key.date = ds := by
  intro slots
  induction slots with
  | nil => intro seen e he; simp [emitSlots] at he
  | cons slot rest ih =>
    intro seen e he
    by_cases h1 : sTrim slot = ""
    · exact ih seen e (by simpa [emitSlots, h1] using he)
    · by_cases h2 : slotKey en rs act ds slot ∈ seen
      · exact ih seen e (by simpa [emitSlots, h1, h2] using he)
      · simp only [emitSlots, h1, h2, if_false, ite_false, List.mem_cons] at he
        rcases he with he | he
        · subst he
          exact ⟨rfl, rfl, rfl, rfl⟩
        · exact ih _ e he

theorem emitSlots_inv (en rs act ds fl : String) (instrs : List String) :
    ∀ slots seen,
      ((emitSlots en rs act ds fl instrs seen slots).2.map Emitted.key).Nodup
      ∧ (∀ e ∈ (emitSlots en rs act ds fl instrs seen slots).2, e.key ∉ seen)
      ∧ (∀ k ∈ seen, k ∈ (emitSlots en rs act ds fl instrs seen slots).1)
      ∧ (∀ e ∈ (emitSlots en rs act ds fl instrs seen slots).2,
          e.key ∈ (emitSlots en rs act ds fl instrs seen slots).1) := by
  intro slots
  induction slots with
  | nil =>
    intro seen
    simp [emitSlots]
  | cons slot rest ih =>
    intro seen
    by_cases h1 : sTrim slot = ""
    · simpa only [emitSlots, h1, if_true, ite_true] using ih seen
    · by_cases h2 : slotKey en rs act ds slot ∈ seen
      · simpa only [emitSlots, h1, h2, if_false, ite_false, if_true, ite_true] using ih seen
      · obtain ⟨ih1, ih2, ih3, ih4⟩ := ih (slotKey en rs act ds slot :: seen)
        simp only [emitSlots, h1, h2, if_false, ite_false, List.map_cons, List.mem_cons,
          List.nodup_cons]
        refine ⟨⟨?_, ih1⟩, ?_, ?_, ?_⟩
        · intro hmem
          rw [List.mem_map] at hmem
          obtain ⟨e, he, hk⟩ := hmem
          exact ih2 e he (hk ▸ List.mem_cons_self _ _)
        · intro e he
          rcases he with he | he
          · subst he; exact h2
          · intro hc
            exact ih2 e he (List.mem_cons_of_mem _ hc)
        · intro k hk
          exact ih3 k (List.mem_cons_of_mem _ hk)
        · intro e he
          rcases he with he | he
          · subst he
            exact ih3 _ (List.mem_cons_self _ _)
          · exact ih4 e he

theorem emitSlots_empty (en rs act ds fl : String) (instrs : List String) :
    ∀ slots seen, (∀ slot ∈ slots, sTrim slot = "" ∨ slotKey en rs act ds slot ∈ seen) →
      (emitSlots en rs act ds fl instrs seen slots).2 = [] := by
  intro slots
  induction slots with
  | nil => intro seen _; rfl
  | cons slot rest ih =>
    intro seen h
    have hrest := fun sl hs => h sl (List.mem_cons_of_mem _ hs)
    by_cases h1 : sTrim slot = ""
    · simp only [emitSlots, h1, if_true, ite_true]
      exact ih seen hrest
    · rcases h slot (List.mem_cons_self _ _) with hc | hc
      · exact absurd hc h1
      · simp only [emitSlots, h1, hc, if_false, ite_false, if_true, ite_true]
        exact ih seen hrest

-- ---------- lemmas: processRow ----------

theorem processRow_eq (ctx : RowCtx) (s : GenState) (r : Nat) :
    processRow ctx s r =
      if rowActivity ctx r = "" then (s, [])
      else if sUpper ctx.sheetName = "GALAXEA" ∧ pyIn "day" (sLower (rowDuration ctx r)) then
        (s, [])
      else
        match rowDate ctx r with
        | none => (s, [])
        | some ds => emitRow ctx s r ds := by
  unfold processRow rowDate
  cases hf : firstDay ctx r with
  | none => rfl
  | some d =>
    cases hm : resolveMonth (rowMonthVal ctx r) with
    | none => by_cases hd : d = 0 <;> simp [hd]
    | some m => by_cases hd : d = 0 <;> by_cases hm0 : m = 0 <;> simp [hd, hm0]

theorem rowDate_none_cases (ctx : RowCtx) (r : Nat)
    (h : firstDay ctx r = none ∨ firstDay ctx r = some 0
      ∨ resolveMonth (rowMonthVal ctx r) = none
      ∨ resolveMonth (rowMonthVal ctx r) = some 0) :
    rowDate ctx r = none := by
  unfold rowDate
  cases hf : firstDay ctx r with
  | none => rfl
  | some d =>
    rcases h with h | h | h | h
    · rw [hf] at h; exact absurd h (by simp)
    · rw [hf] at h
      injection h with h
      simp [h]
    · rw [h]
      by_cases hd : d = 0 <;> simp [hd]
    · rw [h]
      by_cases hd : d = 0 <;> simp [hd]

theorem rowDate_eq_some (ctx : RowCtx) (r : Nat) (ds : String)
    (h : rowDate ctx r = some ds) :
    ∃ d m, firstDay ctx r = some d ∧ resolveMonth (rowMonthVal ctx r) = some m
      ∧ ds = mkDate d m := by
  unfold rowDate at h
  cases hf : firstDay ctx r with
  | none => rw [hf] at h; exact absurd h (by simp)
  | some d =>
    simp only [hf] at h
    by_cases hd : d = 0
    · simp [hd] at h
    · rw [if_neg hd] at h
      cases hm : resolveMonth (rowMonthVal ctx r) with
      | none => rw [hm] at h; exact absurd h (by simp)
      | some m =>
        simp only [hm] at h
        by_cases hm0 : m = 0
        · simp [hm0] at h
        · rw [if_neg hm0] at h
          injection h with h
          exact ⟨d, m, rfl, rfl, h.symm⟩

theorem emitRow_seen (ctx : RowCtx) (s : GenState) (r : Nat) (ds : String) :
    (emitRow ctx s r ds) =
      (⟨(emitSlots (rowEventName ctx r) (rowResort ctx r) (rowActivity ctx r) ds
          (colorFor ctx.supply s (rowEventName ctx r)).2 (rowInstrs ctx r) s.seen
          (rowSlots ctx r)).1,
        (colorFor ctx.supply s (rowEventName ctx r)).1.cache,
        (colorFor ctx.supply s (rowEventName ctx r)).1.ctr⟩,
       (emitSlots (rowEventName ctx r) (rowResort ctx r) (rowActivity ctx r) ds
          (colorFor ctx.supply s (rowEventName ctx r)).2 (rowInstrs ctx r) s.seen
          (rowSlots ctx r)).2) := by
  simp only [emitRow, colorFor_seen]

theorem processRow_skip (ctx : RowCtx) (s : GenState) (r : Nat) (h : rowSkipGate ctx s r) :
    (processRow ctx s r).2 = [] := by
  rw [processRow_eq]
  by_cases h1 : rowActivity ctx r = ""
  · simp [h1]
  · rw [if_neg h1]
    by_cases h2 : sUpper ctx.sheetName = "GALAXEA" ∧ pyIn "day" (sLower (rowDuration ctx r))
    · simp [h2]
    · rw [if_neg h2]
      cases hd : rowDate ctx r with
      | none => rfl
      | some ds =>
        show (emitRow ctx s r ds).2 = []
        rcases h with h | h | h | h | h | h | h | h
        · exact absurd h h1
        · exact absurd h h2
        · rw [rowDate_none_cases ctx r (Or.inl h)] at hd; exact absurd hd (by simp)
        · rw [rowDate_none_cases ctx r (Or.inr (Or.inl h))] at hd; exact absurd hd (by simp)
        · rw [rowDate_none_cases ctx r (Or.inr (Or.inr (Or.inl h)))] at hd
          exact absurd hd (by simp)
        · rw [rowDate_none_cases ctx r (Or.inr (Or.inr (Or.inr h)))] at hd
          exact absurd hd (by simp)
        · rw [emitRow_seen]
          simp [h, emitSlots]
        · rw [emitRow_seen]
          apply emitSlots_empty
          intro slot hs
          rcases h slot hs with h1 | hdup
          · exact Or.inl h1
          · unfold dupSkip at hdup
            rw [hd] at hdup
            right
            unfold slotKey
            exact of_decide_eq_true hdup

theorem processRow_cases (ctx : RowCtx) (s : GenState) (r : Nat) :
    processRow ctx s r = (s, [])
    ∨ ∃ ds, rowDate ctx r = some ds ∧ processRow ctx s r = emitRow ctx s r ds := by
  rw [processRow_eq]
  by_cases h1 : rowActivity ctx r = ""
  · left; simp [h1]
  · rw [if_neg h1]
    by_cases h2 : sUpper ctx.sheetName = "GALAXEA" ∧ pyIn "day" (sLower (rowDuration ctx r))
    · left; simp [h2]
    · rw [if_neg h2]
      cases hd : rowDate ctx r with
      | none => left; rfl
      | some ds => right; exact ⟨ds, rfl, rfl⟩

theorem processRow_shape (ctx : RowCtx) (s : GenState) (r : Nat) :
    ∀ e ∈ (processRow ctx s r).2,
      ∃ ds fl, rowDate ctx r = some ds
        ∧ e.header = ⟨rowEventName ctx r, rowActivity ctx r, rowActivity ctx r, ds,
            e.key.startT, e.key.endT, fl⟩
        ∧ e.instrRows = (rowInstrs ctx r).map
            (fun i => ⟨rowEventName ctx r, i, rowActivity ctx r, ds,
              e.key.startT, e.key.endT, fl⟩)
        ∧ e.key.event = rowEventName ctx r ∧ e.key.date = ds := by
  intro e he
  rcases processRow_cases ctx s r with h | ⟨ds, hd, h⟩
  · rw [h] at he; simp at he
  · rw [h, emitRow_seen] at he
    obtain ⟨hh, hi, hk1, hk2⟩ := emitSlots_shape _ _ _ _ _ _ _ _ e he
    exact ⟨ds, _, hd, hh, hi, hk1, hk2⟩

theorem processRow_inv (ctx : RowCtx) (s : GenState) (r : Nat) :
    ((processRow ctx s r).2.map Emitted.key).Nodup
    ∧ (∀ e ∈ (processRow ctx s r).2, e.key ∉ s.seen)
    ∧ (∀ k ∈ s.seen, k ∈ (processRow ctx s r).1.seen)
    ∧ (∀ e ∈ (processRow ctx s r).2, e.key ∈ (processRow ctx s r).1.seen) := by
  rcases processRow_cases ctx s r with h | ⟨ds, hd, h⟩
  · rw [h]
    exact ⟨List.nodup_nil, by simp, fun k hk => hk, by simp⟩
  · rw [h, emitRow_seen]
    exact emitSlots_inv (rowEventName ctx r) (rowResort ctx r) (rowActivity ctx r) ds
      (colorFor ctx.supply s (rowEventName ctx r)).2 (rowInstrs ctx r) (rowSlots ctx r) s.seen

theorem processRow_cache (ctx : RowCtx) (s : GenState) (r : Nat) :
    cacheExtends s.cache (processRow ctx s r).1.cache
    ∧ ∀ e ∈ (processRow ctx s r).2, ∀ row ∈ e.rows,
        alookup (processRow ctx s r).1.cache row.event = some row.fill := by
  rcases processRow_cases ctx s r with h | ⟨ds, hd, h⟩
  · rw [h]
    exact ⟨cacheExtends_refl _, by simp⟩
  · rw [h, emitRow_seen]
    refine ⟨(colorFor_cache ctx.supply s (rowEventName ctx r)).1, ?_⟩
    intro e he row hrow
    obtain ⟨hh, hi, hk1, hk2⟩ := emitSlots_shape _ _ _ _ _ _ _ _ e he
    have hcl := (colorFor_cache ctx.supply s (rowEventName ctx r)).2
    simp only [Emitted.rows, List.mem_cons] at hrow
    rcases hrow with hr | hr
    · subst hr
      rw [hh]
      exact hcl
    · rw [hi, List.mem_map] at hr
      obtain ⟨i, _, hri⟩ := hr
      subst hri
      exact hcl

-- ---------- lemmas: processRows ----------

theorem processRows_inv (ctx : RowCtx) :
    ∀ rows (s : GenState),
      ((processRows ctx s rows).2.map Emitted.key).Nodup
      ∧ (∀ e ∈ (processRows ctx s rows).2, e.key ∉ s.seen)
      ∧ (∀ k ∈ s.seen, k ∈ (processRows ctx s rows).1.seen)
      ∧ (∀ e ∈ (processRows ctx s rows).2, e.key ∈ (processRows ctx s rows).1.seen) := by
  intro rows
  induction rows with
  | nil => intro s; simp [processRows]
  | cons r rest ih =>
    intro s
    obtain ⟨a1, a2, a3, a4⟩ := processRow_inv ctx s r
    obtain ⟨b1, b2, b3, b4⟩ := ih (processRow ctx s r).1
    simp only [processRows, List.map_append, List.mem_append]
    refine ⟨?_, ?_, ?_, ?_⟩
    · refine List.Nodup.append a1 b1 ?_
      intro k hka hkb
      rw [List.mem_map] at hka hkb
      obtain ⟨e, he, hek⟩ := hka
      obtain ⟨e2, he2, he2k⟩ := hkb
      exact b2 e2 he2 ((he2k.trans hek.symm) ▸ a4 e he)
    · intro e he
      rcases he with he | he
      · exact a2 e he
      · intro hc
        exact b2 e he (a3 _ hc)
    · intro k hk
      exact b3 _ (a3 _ hk)
    · intro e he
      rcases he with he | he
      · exact b3 _ (a4 e he)
      · exact b4 e he

theorem processRows_cache (ctx : RowCtx) :
    ∀ rows (s : GenState),
      cacheExtends s.cache (processRows ctx s rows).1.cache
      ∧ ∀ e ∈ (processRows ctx s rows).2, ∀ row ∈ e.rows,
          alookup (processRows ctx s rows).1.cache row.event = some row.fill := by
  intro rows
  induction rows with
  | nil => intro s; exact ⟨cacheExtends_refl _, by simp [processRows]⟩
  | cons r rest ih =>
    intro s
    obtain ⟨a1, a2⟩ := processRow_cache ctx s r
    obtain ⟨b1, b2⟩ := ih (processRow ctx s r).1
    simp only [processRows, List.mem_append]
    refine ⟨cacheExtends_trans a1 b1, ?_⟩
    intro e he row hrow
    rcases he with he | he
    · exact b1 _ _ (a2 e he row hrow)
    · exact b2 e he row hrow

theorem processRows_shape (ctx : RowCtx) :
    ∀ rows (s : GenState), ∀ e ∈ (processRows ctx s rows).2,
      ∃ r, ∃ ds fl, rowDate ctx r = some ds
        ∧ e.header = ⟨rowEventName ctx r, rowActivity ctx r, rowActivity ctx r, ds,
            e.key.startT, e.key.endT, fl⟩
        ∧ e.instrRows = (rowInstrs ctx r).map
            (fun i => ⟨rowEventName ctx r, i, rowActivity ctx r, ds,
              e.key.startT, e.key.endT, fl⟩)
        ∧ e.key.event = rowEventName ctx r ∧ e.key.date = ds := by
  intro rows
  induction rows with
  | nil => intro s e he; simp [processRows] at he
  | cons r rest ih =>
    intro s e he
    simp only [processRows, List.mem_append] at he
    rcases he with he | he
    · exact ⟨r, processRow_shape ctx s r e he⟩
    · exact ih (processRow ctx s r).1 e he

-- ---------- lemmas: sheet and run level ----------

theorem alookup_cons {α : Type} (p : String × α) (l : List (String × α)) (k : String) :
    alookup (p :: l) k = if p.1 = k then some p.2 else alookup l k := rfl

theorem alookup_append_isSome {α : Type} (l1 l2 : List (String × α)) (k : String)
    (h : (alookup (l1 ++ l2) k).isSome) :
    (alookup l1 k).isSome ∨ (alookup l2 k).isSome := by
  induction l1 with
  | nil => exact Or.inr h
  | cons p rest ih =>
    rw [List.cons_append, alookup_cons] at h
    rw [alookup_cons]
    by_cases hk : p.1 = k
    · rw [if_pos hk] at h ⊢
      exact Or.inl h
    · rw [if_neg hk] at h ⊢
      exact ih h

theorem alookup_singleton_isSome {α : Type} (a : String) (v : α) (k : String)
    (h : (alookup [(a, v)] k).isSome) : a = k := by
  unfold alookup at h
  by_cases hk : a = k
  · exact hk
  · simp [hk, alookup] at h

theorem preload_fold_keys (staffWb : Workbook) :
    ∀ (l : List String) (acc : List (String × List (String × List String))) (k : String),
      (alookup (l.foldl (fun acc sheet =>
          match staffWb.find? sheet with
          | none => acc
          | some ws => acc ++ [(sheet, staffSheetMap ws)]) acc) k).isSome →
      (alookup acc k).isSome ∨ k ∈ l := by
  intro l
  induction l with
  | nil => intro acc k h; exact Or.inl h
  | cons sheet rest ih =>
    intro acc k h
    simp only [List.foldl_cons] at h
    cases hf : staffWb.find? sheet with
    | none =>
      simp only [hf] at h
      rcases ih _ k h with h2 | h2
      · exact Or.inl h2
      · exact Or.inr (List.mem_cons_of_mem _ h2)
    | some ws =>
      simp only [hf] at h
      rcases ih _ k h with h2 | h2
      · rcases alookup_append_isSome _ _ _ h2 with h3 | h3
        · exact Or.inl h3
        · exact Or.inr (alookup_singleton_isSome _ _ _ h3 ▸ List.mem_cons_self _ _)
      · exact Or.inr (List.mem_cons_of_mem _ h2)

theorem preload_staff_keys (staffWb : Workbook) (k : String)
    (h : (alookup (preload_staff staffWb) k).isSome) : k ∈ TARGET_SHEETS := by
  rcases preload_fold_keys staffWb TARGET_SHEETS [] k h with h2 | h2
  · simp [alookup] at h2
  · exact h2

theorem processRows_noInstr (ctx : RowCtx) (hmap : ctx.instrsMap = []) :
    ∀ rows (s : GenState), ∀ e ∈ (processRows ctx s rows).2, e.instrRows = [] := by
  intro rows s e he
  obtain ⟨r, ds, fl, _, _, hi, _, _⟩ := processRows_shape ctx rows s e he
  rw [hi]
  simp [rowInstrs, hmap, alookup]

theorem genFold_mem (eventsWb : Workbook) (dvMap : List (String × List (String × String)))
    (instructorsMap : List (String × List (String × List String))) (supply : Nat → String) :
    ∀ (sheets : List Sheet) (cache : List (String × String)) (ctr : Nat) entry,
      entry ∈ (genFold eventsWb dvMap instructorsMap supply cache ctr sheets).2 →
      entry.2 = []
      ∨ ∃ ws cache0 ctr0, ws ∈ sheets ∧ entry.1 = ws.name
          ∧ ∃ mc ac bc,
              entry.2 = (processRows
                (mkCtx eventsWb dvMap instructorsMap supply ws mc ac bc (headerMap ws))
                ⟨[], cache0, ctr0⟩ (List.range' 2 (ws.maxRow - 1))).2 := by
  intro sheets
  induction sheets with
  | nil => intro cache ctr entry he; simp [genFold] at he
  | cons ws rest ih =>
    intro cache ctr entry he
    simp only [genFold, List.mem_append] at he
    rcases he with he | he
    · unfold processSheet at he
      by_cases ht : sUpper ws.name ∈ TARGET_SHEETS
      · rw [if_pos ht] at he
        split at he
        · rename_i monthCol activityCol bookableCol hqm hqa hqb
          rw [List.mem_singleton] at he
          subst he
          exact Or.inr ⟨ws, cache, ctr, List.mem_cons_self _ _, rfl,
            monthCol, activityCol, bookableCol, rfl⟩
        · rw [List.mem_singleton] at he
          subst he
          exact Or.inl rfl
      · rw [if_neg ht] at he
        simp at he
    · rcases ih _ _ entry he with h | ⟨ws2, c0, t0, hw, hn, mc, ac, bc, h2⟩
      · exact Or.inl h
      · exact Or.inr ⟨ws2, c0, t0, List.mem_cons_of_mem _ hw, hn, mc, ac, bc, h2⟩

theorem processSheet_cache (eventsWb : Workbook) (dvMap : List (String × List (String × String)))
    (instructorsMap : List (String × List (String × List String))) (supply : Nat → String)
    (cache : List (String × String)) (ctr : Nat) (ws : Sheet) :
    cacheExtends cache (processSheet eventsWb dvMap instructorsMap supply cache ctr ws).1.1
    ∧ ∀ entry ∈ (processSheet eventsWb dvMap instructorsMap supply cache ctr ws).2,
        ∀ e ∈ entry.2, ∀ row ∈ e.rows,
          alookup (processSheet eventsWb dvMap instructorsMap supply cache ctr ws).1.1
            row.event = some row.fill := by
  unfold processSheet
  by_cases ht : sUpper ws.name ∈ TARGET_SHEETS
  · rw [if_pos ht]
    split
    · rename_i monthCol activityCol bookableCol hqm hqa hqb
      obtain ⟨h1, h2⟩ := processRows_cache
        (mkCtx eventsWb dvMap instructorsMap supply ws monthCol activityCol bookableCol
          (headerMap ws))
        (List.range' 2 (ws.maxRow - 1)) ⟨[], cache, ctr⟩
      refine ⟨h1, ?_⟩
      intro entry hentry e he row hrow
      rw [List.mem_singleton] at hentry
      subst hentry
      exact h2 e he row hrow
    · refine ⟨cacheExtends_refl _, ?_⟩
      intro entry hentry e he row hrow
      rw [List.mem_singleton] at hentry
      subst hentry
      simp at he
  · rw [if_neg ht]
    refine ⟨cacheExtends_refl _, ?_⟩
    intro entry hentry
    simp at hentry

theorem genFold_cacheInv (eventsWb : Workbook) (dvMap : List (String × List (String × String)))
    (instructorsMap : List (String × List (String × List String))) (supply : Nat → String) :
    ∀ (sheets : List Sheet) (cache : List (String × String)) (ctr : Nat),
      cacheExtends cache (genFold eventsWb dvMap instructorsMap supply cache ctr sheets).1.1
      ∧ ∀ entry ∈ (genFold eventsWb dvMap instructorsMap supply cache ctr sheets).2,
          ∀ e ∈ entry.2, ∀ row ∈ e.rows,
            alookup (genFold eventsWb dvMap instructorsMap supply cache ctr sheets).1.1
              row.event = some row.fill := by
  intro sheets
  induction sheets with
  | nil =>
    intro cache ctr
    exact ⟨cacheExtends_refl _, by simp [genFold]⟩
  | cons ws rest ih =>
    intro cache ctr
    obtain ⟨a1, a2⟩ := processSheet_cache eventsWb dvMap instructorsMap supply cache ctr ws
    obtain ⟨b1, b2⟩ := ih (processSheet eventsWb dvMap instructorsMap supply cache ctr ws).1.1
      (processSheet eventsWb dvMap instructorsMap supply cache ctr ws).1.2
    simp only [genFold, List.mem_append]
    refine ⟨cacheExtends_trans a1 b1, ?_⟩
    intro entry hentry e he row hrow
    rcases hentry with hentry | hentry
    · exact b1 _ _ (a2 entry hentry e he row hrow)
    · exact b2 entry hentry e he row hrow

theorem mem_allRows (out : List (String × List Emitted)) (row : OutRow)
    (h : row ∈ allRows out) : ∃ entry, entry ∈ out ∧ ∃ e, e ∈ entry.2 ∧ row ∈ e.rows := by
  unfold allRows at h
  rw [List.mem_join] at h
  obtain ⟨l, hl, hrow⟩ := h
  rw [List.mem_map] at hl
  obtain ⟨entry, hentry, hle⟩ := hl
  subst hle
  unfold sheetRows at hrow
  rw [List.mem_join] at hrow
  obtain ⟨l2, hl2, hrow2⟩ := hrow
  rw [List.mem_map] at hl2
  obtain ⟨e, he, hle2⟩ := hl2
  subst hle2
  exact ⟨entry, hentry, e, he, hrow2⟩

theorem genFold_names (eventsWb : Workbook) (dvMap : List (String × List (String × String)))
    (instructorsMap : List (String × List (String × List String))) (supply : Nat → String) :
    ∀ (sheets : List Sheet) (cache : List (String × String)) (ctr : Nat),
      ((genFold eventsWb dvMap instructorsMap supply cache ctr sheets).2.map Prod.fst) =
        (sheets.map Sheet.name).filter (fun n => decide (sUpper n ∈ TARGET_SHEETS)) := by
  intro sheets
  induction sheets with
  | nil => intro cache ctr; rfl
  | cons ws rest ih =>
    intro cache ctr
    simp only [genFold, List.map_append, List.map_cons, List.filter_cons]
    by_cases ht : sUpper ws.name ∈ TARGET_SHEETS
    · simp only [ht, decide_True, if_true, ite_true]
      unfold processSheet
      rw [if_pos ht]
      split
      · simp [ih]
      · simp [ih]
    · simp only [ht, decide_False, if_false, ite_false]
      unfold processSheet
      rw [if_neg ht]
      simp [ih]

-- ---------- claim theorems ----------

/-- C1: for every events data row, a month cell holding "September",
"Sep", "sept.", "9", "09", or "Sept 2025" resolves to month 9 in the
emitted date, while an unrecognized string such as "Q3" resolves to no
match, that row is skipped, and processing of later rows continues
unchanged.  Textual forms resolve through parse_month_to_num, which is
modelled from the spec because its definition is missing from the
sources. -/
theorem c1_month_resolution :
    (∀ m ∈ (["September", "Sep", "sept.", "9", "09", "Sept 2025"] : List String),
        resolveMonth (.str m) = some 9)
    ∧ resolveMonth (.str "Q3") = none
    ∧ (∀ (ctx : RowCtx) (s : GenState) (r : Nat),
        resolveMonth (rowMonthVal ctx r) = none → processRow ctx s r = (s, []))
    ∧ (∀ (ctx : RowCtx) (s : GenState) (r : Nat) (rest : List Nat),
        resolveMonth (rowMonthVal ctx r) = none →
        (processRows ctx s (r :: rest)).2 = (processRows ctx s rest).2)
    ∧ (∀ (ctx : RowCtx) (s : GenState) (r : Nat),
        resolveMonth (rowMonthVal ctx r) = some 9 →
        ∀ e ∈ (processRow ctx s r).2, ∀ row ∈ e.rows, ∃ d, row.date = mkDate d 9) := by
  have h3 : ∀ (ctx : RowCtx) (s : GenState) (r : Nat),
      resolveMonth (rowMonthVal ctx r) = none → processRow ctx s r = (s, []) := by
    intro ctx s r hm
    rw [processRow_eq, rowDate_none_cases ctx r (Or.inr (Or.inr (Or.inl hm)))]
    split_ifs <;> rfl
  refine ⟨by decide, by decide, h3, ?_, ?_⟩
  · intro ctx s r rest hm
    simp [processRows, h3 ctx s r hm]
  · intro ctx s r hmth e he row hrow
    obtain ⟨ds, fl, hd, hh, hi, _, _⟩ := processRow_shape ctx s r e he
    obtain ⟨d, m, hfd, hm2, hds⟩ := rowDate_eq_some ctx r ds hd
    rw [hmth] at hm2
    injection hm2 with hm2
    subst hm2
    simp only [Emitted.rows, List.mem_cons] at hrow
    rcases hrow with hr | hr
    · subst hr
      rw [hh]
      exact ⟨d, hds⟩
    · rw [hi, List.mem_map] at hr
      obtain ⟨i, _, hri⟩ := hr
      subst hri
      exact ⟨d, hds⟩

theorem c1_month_resolution_w :
    resolveMonth (.str "September") = some 9
    ∧ processRow ctxQ3 s0 2 = (s0, [])
    ∧ (processRows ctxQ3 s0 [2]).2 = (processRows ctxQ3 s0 []).2
    ∧ ∀ e ∈ (processRow ctxC1 s0 2).2, ∀ row ∈ e.rows, ∃ d, row.date = mkDate d 9 :=
  ⟨c1_month_resolution.1 "September" (by decide),
   c1_month_resolution.2.2.1 ctxQ3 s0 2 (by decide),
   c1_month_resolution.2.2.2.1 ctxQ3 s0 2 [] (by decide),
   c1_month_resolution.2.2.2.2 ctxC1 s0 2 (by decide)⟩

/-- C2 (code bug): the claim that no row-level failure ever aborts the
sheet or the run states the code's intended, row-scoped error handling,
but the code deviates on one path: when a row's bookable-hours dropdown
formula is a cross-sheet single-cell reference, `cells = ws[rng]`
yields one Cell and the loop `for row in cells` sits outside the try of
resolve_formula_to_values, so a TypeError escapes and aborts the whole
run instead of skipping the row.  At the failing input the row is an
ordinary data row, every earlier gate passes (activity Yoga, date
05/03/2025), the referenced cell even holds a genuine slot text, and
the slot resolution of the row raises. -/
theorem c2_single_cell_ref_aborts_run :
    rowActivity ctxCrash 2 = "Yoga"
    ∧ rowDate ctxCrash 2 = some "05/03/2025"
    ∧ ((wbCrash.find? "Lists").map (fun ws => safe_str (ws.cell 2 2).val)) =
        some "09:00 - 10:00"
    ∧ resolve_formula_to_values wbCrash "=Lists!B2" = .raise
    ∧ rowSlotsE ctxCrash 2 = .raise := by decide

/-- C3 counterexample: the claim says instructor name columns start from
column 1 when no "priority" header exists, but the code defaults
pri_idx to 1 and starts at pri_idx + 1 = 2: a staff sheet whose only
column holds an instructor over one activity yields an empty map, while
starting at column 1 would have indexed that activity. -/
theorem c3_priority_cex :
    instr_start_col (headerCells ⟨"AKUN", [[cS "Alice"], [cS "Yoga"]]⟩) = 2
    ∧ preload_staff staffWbC3 = [("AKUN", [])] := by decide

/-- C3 (amended): when the header row contains a cell whose text
case-insensitively equals "priority" (headers are lower-cased and
stripped before matching), instructor name columns start immediately
after the first such column; when no such header cell exists, they
start from column 2. -/
theorem c3_priority_column (ws : Sheet) :
    (∀ i, (headerCells ws).findIdx? (fun h => h = "priority") = some i →
        instr_start_col (headerCells ws) = i + 2)
    ∧ ((headerCells ws).findIdx? (fun h => h = "priority") = none →
        instr_start_col (headerCells ws) = 2) := by
  constructor
  · intro i hi
    simp only [instr_start_col, pri_idx, hi]
  · intro hn
    simp only [instr_start_col, pri_idx, hn]

theorem c3_priority_column_w :
    instr_start_col (headerCells ⟨"AKUN", [[cS "X", cS "Priority", cS "Jane"]]⟩) = 3
    ∧ instr_start_col (headerCells ⟨"AKUN", [[cS "Alice"], [cS "Yoga"]]⟩) = 2 :=
  ⟨(c3_priority_column ⟨"AKUN", [[cS "X", cS "Priority", cS "Jane"]]⟩).1 1 (by decide),
   (c3_priority_column ⟨"AKUN", [[cS "Alice"], [cS "Yoga"]]⟩).2 (by decide)⟩

/-- C4: on the multi-day-excluded sheet (any sheet whose upper-cased name
is GALAXEA), a data row whose duration text contains "day"
case-insensitively, in particular one containing the word "day",
produces no output rows. -/
theorem c4_multiday_excluded (ctx : RowCtx) (s : GenState) (r : Nat)
    (hsheet : sUpper ctx.sheetName = "GALAXEA")
    (hday : pyIn "day" (sLower (rowDuration ctx r)) = true) :
    (processRow ctx s r).2 = [] :=
  processRow_skip ctx s r (Or.inr (Or.inl ⟨hsheet, hday⟩))

theorem c4_multiday_excluded_w : (processRow ctxG s0 2).2 = [] :=
  c4_multiday_excluded ctxG s0 2 (by decide) (by decide)

/-- C5: within any one output sheet, the (event_name, resort, activity,
date, start_time, end_time) keys of the emitted blocks are pairwise
distinct: each combination is emitted at most once per sheet, so no two
header rows of a sheet share one. -/
theorem c5_dedup_per_sheet (eventsWb : Workbook)
    (dvMap : List (String × List (String × String))) (staffWb : Workbook)
    (supply : Nat → String) (entry : String × List Emitted)
    (h : entry ∈ generate_output eventsWb dvMap staffWb supply) :
    (entry.2.map Emitted.key).Nodup := by
  rcases genFold_mem eventsWb dvMap (preload_staff staffWb) supply eventsWb.sheets [] 0 entry h
    with h2 | ⟨ws, c0, t0, hw, hn, mc, ac, bc, h2⟩
  · rw [h2]
    exact List.nodup_nil
  · rw [h2]
    exact (processRows_inv _ _ _).1

theorem c5_dedup_per_sheet_w :
    ((("AKUN", [blockC8a, blockC8b]) : String × List Emitted).2.map Emitted.key).Nodup :=
  c5_dedup_per_sheet eventsWbC8 dvC8 staffWbC8 supplyC8 _ (by decide)

/-- C6: within one run, every output row emitted for the same event name
carries the identical fill color: the color is chosen the first time the
event name is seen and cached in event_color_cache, which persists
across sheets, so one event name is never rendered in two colors. -/
theorem c6_color_consistency (eventsWb : Workbook)
    (dvMap : List (String × List (String × String))) (staffWb : Workbook)
    (supply : Nat → String) (r1 r2 : OutRow)
    (h1 : r1 ∈ allRows (generate_output eventsWb dvMap staffWb supply))
    (h2 : r2 ∈ allRows (generate_output eventsWb dvMap staffWb supply))
    (he : r1.event = r2.event) : r1.fill = r2.fill := by
  obtain ⟨entry1, hm1, e1, he1, hr1⟩ := mem_allRows _ _ h1
  obtain ⟨entry2, hm2, e2, he2, hr2⟩ := mem_allRows _ _ h2
  obtain ⟨_, hc⟩ := genFold_cacheInv eventsWb dvMap (preload_staff staffWb) supply
    eventsWb.sheets [] 0
  have q1 := hc entry1 hm1 e1 he1 r1 hr1
  have q2 := hc entry2 hm2 e2 he2 r2 hr2
  rw [he] at q1
  rw [q1] at q2
  exact Option.some.inj q2

theorem c6_color_consistency_w :
    (⟨"Yoga", "Yoga", "Yoga", "05/03/2025", "09:00", "10:00", "FFFFE5CC"⟩ : OutRow).fill =
      (⟨"Yoga", "Jane Doe", "Yoga", "05/03/2025", "17:00", "18:00", "FFFFE5CC"⟩ : OutRow).fill :=
  c6_color_consistency eventsWbC8 dvC8 staffWbC8 supplyC8 _ _ (by decide) (by decide) (by decide)

/-- C7: the staff column scan stops at the first blank cell, so values
below a blank never contribute; red-highlighted cells are skipped
without stopping the scan; and the concrete round-trip staff sheet with
instructor column "Jane Doe (Lead)" over Yoga, Pilates, a blank and a
later value yields Yoga and Pilates each mapped to "Jane Doe", the
value after the blank absent. -/
theorem c7_staff_scan :
    (∀ (pre post : List Cell) (c : Cell), safe_str c.val = "" →
        colEntries (pre ++ c :: post) = colEntries pre)
    ∧ (∀ (pre post : List Cell) (c : Cell), safe_str c.val ≠ "" → is_red c = true →
        colEntries (pre ++ c :: post) = colEntries (pre ++ post))
    ∧ preload_staff staffWbC7 =
        [("AKUN", [("Yoga", ["Jane Doe"]), ("Pilates", ["Jane Doe"])])] := by
  refine ⟨?_, ?_, by decide⟩
  · intro pre post c hc
    induction pre with
    | nil => simp [colEntries, hc]
    | cons c2 rest ih =>
      simp only [List.cons_append, colEntries]
      by_cases h2 : safe_str c2.val = ""
      · simp [h2]
      · by_cases h3 : is_red c2 <;> simp [h2, h3, ih]
  · intro pre post c hc hr
    induction pre with
    | nil => simp [colEntries, hc, hr]
    | cons c2 rest ih =>
      simp only [List.cons_append, colEntries]
      by_cases h2 : safe_str c2.val = ""
      · simp [h2]
      · by_cases h3 : is_red c2 <;> simp [h2, h3, ih]

theorem c7_staff_scan_w :
    colEntries ([cS "Yoga"] ++ cE :: [cS "Ghost"]) = colEntries [cS "Yoga"]
    ∧ colEntries ([cS "Yoga"] ++ (⟨.str "Pilates", some "FFC00000"⟩ : Cell) :: [cS "Swim"]) =
        colEntries ([cS "Yoga"] ++ [cS "Swim"]) :=
  ⟨c7_staff_scan.1 [cS "Yoga"] [cS "Ghost"] cE (by decide),
   c7_staff_scan.2.1 [cS "Yoga"] [cS "Swim"] ⟨.str "Pilates", some "FFC00000"⟩
     (by decide) (by decide)⟩

/-- C8: an events row with activity Yoga, month March, one day cell
signaling day 5, and a bookable-hours dropdown resolving to the two
slots, with the staff index mapping Yoga to ["Jane Doe"], produces
exactly 4 output rows, 2 header rows with Resource Yoga and 2
instructor rows with Resource Jane Doe, all dated 05/03/2025, one
header and one instructor row per time slot (the textual month resolves
through the spec-modelled parse_month_to_num). -/
theorem c8_yoga_scenario :
    preload_staff staffWbC8 = [("AKUN", [("Yoga", ["Jane Doe"])])]
    ∧ generate_output eventsWbC8 dvC8 staffWbC8 supplyC8 = [("AKUN", [blockC8a, blockC8b])]
    ∧ allRows (generate_output eventsWbC8 dvC8 staffWbC8 supplyC8) =
        [⟨"Yoga", "Yoga", "Yoga", "05/03/2025", "09:00", "10:00", "FFFFE5CC"⟩,
         ⟨"Yoga", "Jane Doe", "Yoga", "05/03/2025", "09:00", "10:00", "FFFFE5CC"⟩,
         ⟨"Yoga", "Yoga", "Yoga", "05/03/2025", "17:00", "18:00", "FFFFE5CC"⟩,
         ⟨"Yoga", "Jane Doe", "Yoga", "05/03/2025", "17:00", "18:00", "FFFFE5CC"⟩] := by
  refine ⟨by decide, by decide, by decide⟩

/-- C9: every output row emitted for a data row carries the activity
text (as read by safe_str) in its third, Configuration, field, and each
header row carries the activity in both Resource and Configuration. -/
theorem c9_configuration (ctx : RowCtx) (s : GenState) (r : Nat) (e : Emitted)
    (he : e ∈ (processRow ctx s r).2) :
    e.header.resource = rowActivity ctx r
    ∧ e.header.config = rowActivity ctx r
    ∧ ∀ row ∈ e.rows, row.config = rowActivity ctx r := by
  obtain ⟨ds, fl, hd, hh, hi, _, _⟩ := processRow_shape ctx s r e he
  refine ⟨by rw [hh], by rw [hh], ?_⟩
  intro row hrow
  simp only [Emitted.rows, List.mem_cons] at hrow
  rcases hrow with hr | hr
  · subst hr
    rw [hh]
  · rw [hi, List.mem_map] at hr
    obtain ⟨i, _, hri⟩ := hr
    subst hri
    rfl

theorem c9_configuration_w :
    blockC8a.header.resource = rowActivity ctxC9 2
    ∧ blockC8a.header.config = rowActivity ctxC9 2
    ∧ ∀ row ∈ blockC8a.rows, row.config = rowActivity ctxC9 2 :=
  c9_configuration ctxC9 s0 2 blockC8a (by decide)

/-- C10: events sheets are recognized case-insensitively (a sheet is
processed exactly when its upper-cased name is a target), the staff
index is keyed only by the exact upper-case target names, and a
recognized events sheet whose name is not all-uppercase therefore gets
an empty instructor lookup and emits header rows only, as the concrete
run over the sheet "Akun" with matching AKUN staff data shows. -/
theorem c10_case_mismatch :
    (∀ (eventsWb : Workbook) (dvMap : List (String × List (String × String)))
        (staffWb : Workbook) (supply : Nat → String),
        (generate_output eventsWb dvMap staffWb supply).map Prod.fst =
          (eventsWb.sheets.map Sheet.name).filter
            (fun n => decide (sUpper n ∈ TARGET_SHEETS)))
    ∧ (∀ (staffWb : Workbook) (k : String),
        (alookup (preload_staff staffWb) k).isSome → k ∈ TARGET_SHEETS)
    ∧ (∀ (eventsWb : Workbook) (dvMap : List (String × List (String × String)))
        (staffWb : Workbook) (supply : Nat → String)
        (entry : String × List Emitted),
        entry ∈ generate_output eventsWb dvMap staffWb supply →
        entry.1 ∉ TARGET_SHEETS → ∀ e ∈ entry.2, e.instrRows = [])
    ∧ generate_output eventsWbC10 dvC10 staffWbC8 supplyC8 =
        [("Akun", [⟨blockC8a.key, blockC8a.header, []⟩, ⟨blockC8b.key, blockC8b.header, []⟩])] := by
  refine ⟨?_, preload_staff_keys, ?_, by decide⟩
  · intro eventsWb dvMap staffWb supply
    exact genFold_names eventsWb dvMap (preload_staff staffWb) supply eventsWb.sheets [] 0
  · intro eventsWb dvMap staffWb supply entry hmem hexact
    rcases genFold_mem eventsWb dvMap (preload_staff staffWb) supply eventsWb.sheets [] 0
      entry hmem with h2 | ⟨ws, c0, t0, hw, hn, mc, ac, bc, h2⟩
    · rw [h2]
      intro e he
      simp at he
    · rw [h2]
      apply processRows_noInstr
      show (alookup (preload_staff staffWb) ws.name).getD [] = []
      cases hl : alookup (preload_staff staffWb) ws.name with
      | none => rfl
      | some v =>
        exact absurd (preload_staff_keys staffWb ws.name (by rw [hl]; rfl)) (hn ▸ hexact)

theorem c10_case_mismatch_w :
    ("AKUN" ∈ TARGET_SHEETS)
    ∧ (∀ e ∈ (("Akun", [(⟨blockC8a.key, blockC8a.header, []⟩ : Emitted),
        ⟨blockC8b.key, blockC8b.header, []⟩]) : String × List Emitted).2, e.instrRows = []) :=
  ⟨c10_case_mismatch.2.1 staffWbC8 "AKUN" (by decide),
   c10_case_mismatch.2.2.1 eventsWbC10 dvC10 staffWbC8 supplyC8 _ (by decide) (by decide)⟩
